import Mathlib

/-!
Verification development for the `amonguscsv` repository: three sibling
extractor scripts (`extract_player_stats.py`, `extract_match_history.py`,
`extract_teammates.py`) plus a `debug.py` helper, all of which convert
Among Us leaderboard HTML documents into CSV rows by regular-expression
search over the raw document text.

The embedding models Python strings as `List Char`.  Every `re` pattern
used by the scripts is embedded as a `List Atom` mirroring the pattern's
syntax atom by atom, and a backtracking matcher `mA` reproduces Python's
leftmost / priority-order matching semantics (greedy and lazy quantifiers
over character classes, literal alternation, numbered capture groups).
`reSearch` models `re.search` and `finditer` models `re.finditer`.

Modelling conventions (documented where used):
* `Char.toLower` models Python `str.lower()` / `re.IGNORECASE` on the
  ASCII range, which is the range the scripts' patterns exercise.
* The `\s` class and `str.strip()` are modelled with the ASCII whitespace
  set `[ \t\n\r\x0b\x0c]`.
* `csv` serialization of `None` is modelled as the empty string, which is
  the documented behavior of Python's `csv.writer`.
-/

namespace AmongUs

/-- The characters of a Lean string literal; models a Python `str` value. -/
def cs (s : String) : List Char := s.data

/-- ASCII whitespace, modelling Python's `\s` class and `str.strip()`. -/
def isSpaceChar (c : Char) : Bool :=
  c = ' ' || c = '\t' || c = '\n' || c = '\r' || c = '\x0b' || c = '\x0c'

/-- Character classes occurring in the scripts' regular expressions. -/
inductive CC : Type where
  /-- `\d` -/
  | digit : CC
  /-- `\s` -/
  | space : CC
  /-- `.` under `re.DOTALL` -/
  | anyAll : CC
  /-- `.` without `re.DOTALL` (anything but a newline) -/
  | anyNN : CC
  /-- `[^c]` -/
  | not1 (c : Char) : CC
  /-- `[^cd]` -/
  | not2 (c d : Char) : CC
  /-- `[c]` (a single-character class) -/
  | just (c : Char) : CC
  /-- `[\d.]` -/
  | digitDot : CC
deriving DecidableEq

/-- Membership test of a character class. -/
def CC.test : CC → Char → Bool
  | .digit, c => c.isDigit
  | .space, c => isSpaceChar c
  | .anyAll, _ => true
  | .anyNN, c => c ≠ '\n'
  | .not1 x, c => c ≠ x
  | .not2 x y, c => c ≠ x && c ≠ y
  | .just x, c => c = x
  | .digitDot, c => c.isDigit || c = '.'

/-- Shapes of capture-group bodies occurring in the scripts' patterns:
either a quantified class `(p*)`, `(p+)`, `(p*?)`, `(p+?)`, or an optional
single character followed by a quantified class, as in `([-]?[\d.]+)`. -/
inductive GIn : Type where
  | many (p : CC) (greedy : Bool) (min : Nat) : GIn
  | optMany (o : CC) (p : CC) (greedy : Bool) (min : Nat) : GIn
deriving DecidableEq

/-- One syntactic atom of a regular expression.  A pattern is a `List Atom`
matched in sequence, exactly mirroring the Python pattern's concatenation. -/
inductive Atom : Type where
  /-- a literal string; `ci` marks `re.IGNORECASE` matching -/
  | lit (s : List Char) (ci : Bool) : Atom
  /-- `p?` for a single-character class (greedy, as in `[+]?`) -/
  | opt (p : CC) : Atom
  /-- `p*` / `p+` / `p*?` / `p+?` for a single-character class -/
  | many (p : CC) (greedy : Bool) (min : Nat) : Atom
  /-- a numbered capture group -/
  | grp (n : Nat) (g : GIn) : Atom
  /-- a capture group holding an alternation of two literals, `(a|b)` -/
  | alt2 (n : Nat) (a b : List Char) : Atom
deriving DecidableEq

/-- Case-folding character comparison used for `re.IGNORECASE` literals
(`Char.toLower` models `str.lower` on the ASCII range). -/
def chEq (ci : Bool) (a b : Char) : Bool :=
  if ci then a.toLower = b.toLower else a = b

/-- Strip a literal from the front of the input, or fail. -/
def stripLit (ci : Bool) : List Char → List Char → Option (List Char)
  | [], s => some s
  | _ :: _, [] => none
  | a :: l, c :: s => if chEq ci a c then stripLit ci l s else none

/-- Capture environment: group number paired with captured text; the most
recent binding of a group shadows older ones. -/
abbrev Caps := List (Nat × List Char)

def insertCap (n : Nat) (v : List Char) (c : Caps) : Caps := (n, v) :: c

def lookupCap (n : Nat) : Caps → Option (List Char)
  | [] => none
  | (m, v) :: c => if m = n then some v else lookupCap n c

/-- A successful match: final capture environment and the input remaining
after the matched region. -/
abbrev MRes := Caps × List Char

/-- Consume exactly `min` characters satisfying `p`, pushing them (reversed)
onto `acc`: the committed minimum of a `{min,}` quantifier. -/
def peelAcc (p : Char → Bool) : Nat → List Char → List Char → Option (List Char × List Char)
  | 0, acc, s => some (acc, s)
  | _ + 1, _, [] => none
  | m + 1, acc, c :: s' => if p c then peelAcc p m (c :: acc) s' else none

/-- Greedy quantifier loop: consume as many `p`-characters as possible first,
handing the consumed text (reversed `acc`) and the rest of the input to
`tryRest`, backing off one character at a time on failure — Python's
longest-first backtracking order. -/
def grpGreedy (p : Char → Bool) (tryRest : List Char → List Char → Option MRes) :
    List Char → List Char → Option MRes
  | acc, [] => tryRest acc.reverse []
  | acc, c :: s' =>
    if p c then
      match grpGreedy p tryRest (c :: acc) s' with
      | some r => some r
      | none => tryRest acc.reverse (c :: s')
    else tryRest acc.reverse (c :: s')

/-- Lazy quantifier loop: hand the shortest consumption to `tryRest` first,
extending one `p`-character at a time on failure — Python's shortest-first
order for `*?` / `+?`. -/
def grpLazy (p : Char → Bool) (tryRest : List Char → List Char → Option MRes) :
    List Char → List Char → Option MRes
  | acc, [] => tryRest acc.reverse []
  | acc, c :: s' =>
    match tryRest acc.reverse (c :: s') with
    | some r => some r
    | none => if p c then grpLazy p tryRest (c :: acc) s' else none

/-- A `{min,}` quantifier over a character class: commit the minimum, then
run the greedy or lazy loop.  `tryRest` receives the full consumed text
(the capture, if the quantifier is a group) and the remaining input. -/
def grpMany (p : Char → Bool) (greedy : Bool) (min : Nat)
    (tryRest : List Char → List Char → Option MRes)
    (acc0 s : List Char) : Option MRes :=
  match peelAcc p min acc0 s with
  | none => none
  | some (acc1, s1) =>
    if greedy then grpGreedy p tryRest acc1 s1 else grpLazy p tryRest acc1 s1

/-- The backtracking matcher.  `mA atoms s caps k` tries to match `atoms`
against a prefix of `s`, extending `caps`, and passes the remainder and the
captures to the continuation `k`; alternatives are tried in Python's
priority order, so the first overall success is returned. -/
def mA : List Atom → List Char → Caps → (List Char → Caps → Option MRes) → Option MRes
  | [], s, caps, k => k s caps
  | a :: rest, s, caps, k =>
    match a with
    | .lit l ci =>
      match stripLit ci l s with
      | some s' => mA rest s' caps k
      | none => none
    | .opt p =>
      match s with
      | [] => mA rest [] caps k
      | c :: s' =>
        if p.test c then
          match mA rest s' caps k with
          | some r => some r
          | none => mA rest s caps k
        else mA rest s caps k
    | .many p greedy min =>
      grpMany p.test greedy min (fun _v s' => mA rest s' caps k) [] s
    | .grp n g =>
      match g with
      | .many p greedy min =>
        grpMany p.test greedy min (fun v s' => mA rest s' (insertCap n v caps) k) [] s
      | .optMany o p greedy min =>
        match s with
        | [] => grpMany p.test greedy min (fun v s' => mA rest s' (insertCap n v caps) k) [] []
        | c :: s' =>
          if o.test c then
            match grpMany p.test greedy min
                (fun v s'' => mA rest s'' (insertCap n v caps) k) [c] s' with
            | some r => some r
            | none =>
              grpMany p.test greedy min
                (fun v s'' => mA rest s'' (insertCap n v caps) k) [] (c :: s')
          else
            grpMany p.test greedy min
              (fun v s'' => mA rest s'' (insertCap n v caps) k) [] (c :: s')
    | .alt2 n x y =>
      match stripLit false x s with
      | some s' =>
        (match mA rest s' (insertCap n x caps) k with
         | some r => some r
         | none =>
           match stripLit false y s with
           | some s'' => mA rest s'' (insertCap n y caps) k
           | none => none)
      | none =>
        match stripLit false y s with
        | some s'' => mA rest s'' (insertCap n y caps) k
        | none => none

/-- Attempt a match anchored at the start of `s`. -/
def matchHere (atoms : List Atom) (s : List Char) : Option MRes :=
  mA atoms s [] (fun s' caps => some (caps, s'))

/-- Model of `re.search`: the leftmost match, scanning start positions left
to right. -/
def reSearch (atoms : List Atom) : List Char → Option MRes
  | [] => matchHere atoms []
  | c :: rest =>
    match matchHere atoms (c :: rest) with
    | some r => some r
    | none => reSearch atoms rest

/-- Model of `re.finditer`: non-overlapping matches in order, each search
resuming after the previous match (advancing one character after a
zero-width match at the current position, as Python does).  The first
argument is fuel: every successful match strictly shortens the remaining
input (the remainder `rem` is always a suffix of `s`, so `rem = s` exactly
when the match was zero-width at the start), hence a fuel list as long as
the input suffices and the fuel-exhausted branch is unreachable. -/
def finditerAux (atoms : List Atom) : List Char → List Char → List Caps
  | fuel, s =>
    match reSearch atoms s with
    | none => []
    | some (caps, rem) =>
      match fuel with
      | [] => [caps]
      | _ :: fuel' => caps :: finditerAux atoms fuel' (if rem = s then rem.drop 1 else rem)

def finditer (atoms : List Atom) (s : List Char) : List Caps :=
  finditerAux atoms s s

/-- `match.group(n)` for a group that participated in the match.  The
`getD []` default is never reached on the patterns used here (every group
read is proved bound below); it only makes the model total. -/
def gcap (c : Caps) (n : Nat) : List Char := (lookupCap n c).getD []

/-- `match.group(1)` of a search result. -/
def group1 (r : MRes) : List Char := gcap r.1 1

/-- Python `str.strip()` over the ASCII whitespace set. -/
def stripL (s : List Char) : List Char :=
  (((s.dropWhile isSpaceChar).reverse).dropWhile isSpaceChar).reverse

/-- Python truthiness of an optional string (`None` and `""` are falsy). -/
def strFalsy : Option (List Char) → Bool
  | none => true
  | some s => s.isEmpty

/-- Python `x or 'Unknown'` for an optional string. -/
def orUnknown : Option (List Char) → List Char
  | none => cs "Unknown"
  | some s => if s.isEmpty then cs "Unknown" else s

/-- Python `needle in haystack` substring test. -/
def subStr (n : List Char) : List Char → Bool
  | [] => n.isEmpty
  | c :: t => n.isPrefixOf (c :: t) || subStr n t

/-- Python `str.lower()` (ASCII range). -/
def lowerStr (s : List Char) : List Char := s.map Char.toLower

/-! ## The scripts' regular expressions, atom by atom

Shorthands: `L` / `LI` are case-sensitive / `IGNORECASE` literals, `sp0`
is `\s*`, `sp1` is `\s+`, `notGT` is `[^>]*`, `notQ0` is `[^"]*`,
`dotLazy` is `.*?` under `DOTALL`, and `gDigits n` is `(\d+)` as group `n`. -/

def L (s : String) : Atom := .lit (cs s) false

def LI (s : String) : Atom := .lit (cs s) true

def sp0 : Atom := .many .space true 0

def sp1 : Atom := .many .space true 1

def notGT : Atom := .many (.not1 '>') true 0

def notQ0 : Atom := .many (.not1 '"') true 0

def dotLazy : Atom := .many .anyAll false 0

def gDigits (n : Nat) : Atom := .grp n (.many .digit true 1)

/-- `cdn\.discordapp\.com/avatars/(\d+)/` (all three scripts). -/
def P_avatar : List Atom :=
  [L "cdn.discordapp.com/avatars/", gDigits 1, L "/"]

/-- `data-href="[^"]*id=(\d+)` (stats script only, the data-href fallback). -/
def P_dataHrefId : List Atom :=
  [L "data-href=\"", notQ0, L "id=", gDigits 1]

/-- `data-href="[^"]*tournament=([^"&]+)` (season extraction). -/
def P_tournament : List Atom :=
  [L "data-href=\"", notQ0, L "tournament=", .grp 1 (.many (.not2 '"' '&') true 1)]

/-- `Season\s+(\d+)` with `IGNORECASE` (season-number token). -/
def P_seasonNum : List Atom :=
  [LI "Season", sp1, gDigits 1]

/-- `<title>\s*(.+?)\s*-\s*Ranked Among Us Leaderboards\s*</title>` with
`IGNORECASE` (server name). -/
def P_title : List Atom :=
  [LI "<title>", sp0, .grp 1 (.many .anyNN false 1), sp0, LI "-", sp0,
   LI "Ranked Among Us Leaderboards", sp0, LI "</title>"]

/-- `class="avatar avatarTop"[^>]*>.*?<h1[^>]*>\s*([^<]+?)\s*</h1>` with
`DOTALL` (username). -/
def P_username : List Atom :=
  [L "class=\"avatar avatarTop\"", notGT, L ">", dotLazy, L "<h1", notGT, L ">",
   sp0, .grp 1 (.many (.not1 '<') false 1), sp0, L "</h1>"]

/-- `<td[^>]*>\s*(\d+)\s*</td>`, one stats cell. -/
def cellA (n : Nat) : List Atom :=
  [L "<td", notGT, L ">", sp0, gDigits n, sp0, L "</td>"]

/-- `<td[^>]*>\s*(\d+).*?</td>`, one stats cell. -/
def cellB (n : Nat) : List Atom :=
  [L "<td", notGT, L ">", sp0, gDigits n, dotLazy, L "</td>"]

/-- `<td[^>]*>\s*(\d+)%\s*</td>`, one percentage stats cell. -/
def cellP (n : Nat) : List Atom :=
  [L "<td", notGT, L ">", sp0, gDigits n, L "%", sp0, L "</td>"]

/-- The six consecutive cells shared by all three role-stat patterns:
`<td[^>]*>\s*(\d+)\s*</td>\s*<td[^>]*>\s*(\d+).*?</td>\s*<td[^>]*>\s*(\d+)%\s*</td>\s*<td[^>]*>\s*(\d+).*?</td>\s*<td[^>]*>\s*(\d+).*?</td>\s*<td[^>]*>\s*(\d+)%\s*</td>` -/
def statCells : List Atom :=
  cellA 1 ++ [sp0] ++ cellB 2 ++ [sp0] ++ cellP 3 ++ [sp0] ++
  cellB 4 ++ [sp0] ++ cellB 5 ++ [sp0] ++ cellP 6

/-- `<tr>\s*<th[^>]*color:\s*royalblue[^>]*>.*?steam_AboutCrew.*?</th>\s*`
followed by the six cells, with `DOTALL` (Crewmate row). -/
def P_crew : List Atom :=
  [L "<tr>", sp0, L "<th", notGT, L "color:", sp0, L "royalblue", notGT, L ">",
   dotLazy, L "steam_AboutCrew", dotLazy, L "</th>", sp0] ++ statCells

/-- `<th[^>]*color:\s*red[^>]*>.*?steam_AboutImpostor.*?</th>\s*` followed by
the six cells, with `DOTALL` (Impostor row). -/
def P_imp : List Atom :=
  [L "<th", notGT, L "color:", sp0, L "red", notGT, L ">",
   dotLazy, L "steam_AboutImpostor", dotLazy, L "</th>", sp0] ++ statCells

/-- `<th[^>]*color:\s*white[^>]*>.*?</th>\s*` followed by the six cells,
with `DOTALL` (Combined row). -/
def P_comb : List Atom :=
  [L "<th", notGT, L "color:", sp0, L "white", notGT, L ">",
   dotLazy, L "</th>", sp0] ++ statCells

/-- `Recent 10 Results.*?<table[^>]*class="archiveResults[^"]*"[^>]*>(.*?)</table>`
with `DOTALL | IGNORECASE` (match-history table). -/
def P_mhTable : List Atom :=
  [LI "Recent 10 Results", dotLazy, LI "<table", notGT, LI "class=\"archiveResults",
   notQ0, LI "\"", notGT, LI ">", .grp 1 (.many .anyAll false 0), LI "</table>"]

/-- The match-row pattern of `extract_match_history`, with `DOTALL`:
`<tr>\s*<th[^>]*>\s*(\d+)\s*</th>\s*<td[^>]*>\s*<img[^>]*src="([^"]+)"[^>]*>\s*</td>\s*<td[^>]*>\s*<img[^>]*src="([^"]+)"[^>]*>\s*</td>\s*<td[^>]*>\s*([\d.]+)%\s*</td>\s*<td[^>]*>\s*<span[^>]*>\s*(Won|Loss)\s*</span>\s*</td>\s*<td[^>]*>\s*[+]?([-]?[\d.]+)(.*?)</td>` -/
def P_mhRow : List Atom :=
  [L "<tr>", sp0, L "<th", notGT, L ">", sp0, gDigits 1, sp0, L "</th>", sp0,
   L "<td", notGT, L ">", sp0, L "<img", notGT, L "src=\"",
   .grp 2 (.many (.not1 '"') true 1), L "\"", notGT, L ">", sp0, L "</td>", sp0,
   L "<td", notGT, L ">", sp0, L "<img", notGT, L "src=\"",
   .grp 3 (.many (.not1 '"') true 1), L "\"", notGT, L ">", sp0, L "</td>", sp0,
   L "<td", notGT, L ">", sp0, .grp 4 (.many .digitDot true 1), L "%", sp0, L "</td>", sp0,
   L "<td", notGT, L ">", sp0, L "<span", notGT, L ">", sp0,
   .alt2 5 (cs "Won") (cs "Loss"), sp0, L "</span>", sp0, L "</td>", sp0,
   L "<td", notGT, L ">", sp0, .opt (.just '+'),
   .grp 6 (.optMany (.just '-') .digitDot true 1),
   .grp 7 (.many .anyAll false 0), L "</td>"]

/-- `([\d.]+)%\s*of\s*total` (the "% of total" annotation). -/
def P_pctTotal : List Atom :=
  [.grp 1 (.many .digitDot true 1), L "%", sp0, L "of", sp0, L "total"]

/-- `Top 10 Common Teammates.*?<table.*?>(.*?)</table>` with
`DOTALL | IGNORECASE` (teammates table). -/
def P_tmTable : List Atom :=
  [LI "Top 10 Common Teammates", dotLazy, LI "<table", dotLazy, LI ">",
   .grp 1 (.many .anyAll false 0), LI "</table>"]

/-- The teammate-row pattern of `extract_teammates`, with `DOTALL`:
`<tr[^>]*data-href="[^"]*id=(\d+)"[^>]*>.*?<th[^>]*>\s*(\d+)\s*</th>.*?<img[^>]*/>([^<]+)</td>.*?<td[^>]*>\s*(\d+)\s*</td>.*?<td[^>]*>\s*(\d+)\s*\[(\d+)%\]\s*</td>` -/
def P_tmRow : List Atom :=
  [L "<tr", notGT, L "data-href=\"", notQ0, L "id=", gDigits 1, L "\"", notGT, L ">",
   dotLazy, L "<th", notGT, L ">", sp0, gDigits 2, sp0, L "</th>", dotLazy,
   L "<img", notGT, L "/>", .grp 3 (.many (.not1 '<') true 1), L "</td>", dotLazy,
   L "<td", notGT, L ">", sp0, gDigits 4, sp0, L "</td>", dotLazy,
   L "<td", notGT, L ">", sp0, gDigits 5, sp0, L "[", gDigits 6, L "%]", sp0, L "</td>"]

/-! ## Field extractors (shared by the three scripts) -/

/-- `extract_server_name` (identical in all three scripts). -/
def extract_server_name (html : List Char) : Option (List Char) :=
  (reSearch P_title html).map (fun r => stripL (group1 r))

/-- `extract_season` (identical in the stats, match-history and teammate
scripts): the `tournament=` query value of the first `data-href`, reduced
to the digits of a `Season N` token, with `"0"` as the default in both the
no-reference and no-token cases. -/
def extract_season (html : List Char) : List Char :=
  match reSearch P_tournament html with
  | some r =>
    match reSearch P_seasonNum (stripL (group1 r)) with
    | some r2 => group1 r2
    | none => cs "0"
  | none => cs "0"

/-- The `tournament=` value the season logic starts from, as an optional
scalar (used to state claims about `extract_season`). -/
def tournamentParam (html : List Char) : Option (List Char) :=
  (reSearch P_tournament html).map group1

/-- The `Season N` digits found inside a tournament value, as an optional
scalar (used to state claims about `extract_season`). -/
def seasonNum (s : List Char) : Option (List Char) :=
  (reSearch P_seasonNum s).map group1

/-- The avatar-URL Discord id, shared head of all three `extract_discord_id`
variants. -/
def avatar_id (html : List Char) : Option (List Char) :=
  (reSearch P_avatar html).map group1

/-- The `data-href` `id=` Discord id, the stats script's fallback. -/
def datahref_id (html : List Char) : Option (List Char) :=
  (reSearch P_dataHrefId html).map group1

/-- `extract_discord_id` of `extract_player_stats.py`: avatar URL first,
then the `data-href` fallback. -/
def extract_discord_id_stats (html : List Char) : Option (List Char) :=
  match reSearch P_avatar html with
  | some r => some (group1 r)
  | none =>
    match reSearch P_dataHrefId html with
    | some r => some (group1 r)
    | none => none

/-- `extract_discord_id` of `extract_match_history.py`: avatar URL only. -/
def extract_discord_id_mh (html : List Char) : Option (List Char) :=
  match reSearch P_avatar html with
  | some r => some (group1 r)
  | none => none

/-- `extract_discord_id` of `extract_teammates.py`: avatar URL only
(duplicated source, kept as its own definition). -/
def extract_discord_id_tm (html : List Char) : Option (List Char) :=
  match reSearch P_avatar html with
  | some r => some (group1 r)
  | none => none

/-- `extract_username` (identical in all three scripts). -/
def extract_username (html : List Char) : Option (List Char) :=
  (reSearch P_username html).map (fun r => stripL (group1 r))

/-! ## Lookup tables (`extract_match_history.py`) -/

/-- `extract_map_from_image`: case-insensitive substring dispatch on the
lowered image source, first match wins. -/
def extract_map_from_image (img_src : List Char) : List Char :=
  if subStr (cs "polus") (lowerStr img_src) then cs "Polus"
  else if subStr (cs "mira") (lowerStr img_src) then cs "MIRA HQ"
  else if subStr (cs "skeld") (lowerStr img_src) then cs "The Skeld"
  else if subStr (cs "airship") (lowerStr img_src) then cs "Airship"
  else cs "Unknown"

/-- `extract_role_from_image`: substring dispatch on the raw (un-lowered)
image source, checking only the exact variants `Crew`/`crew` and
`Impostor`/`impostor`. -/
def extract_role_from_image (img_src : List Char) : List Char :=
  if subStr (cs "Crew") img_src || subStr (cs "crew") img_src then cs "Crewmate"
  else if subStr (cs "Impostor") img_src || subStr (cs "impostor") img_src then cs "Impostor"
  else cs "Unknown"

/-! ## Aggregate stats (`extract_player_stats.py`) -/

/-- One role's six optional stat fields. -/
structure RoleStats : Type where
  rank : Option (List Char)
  mmr : Option (List Char)
  games_played_pct : Option (List Char)
  wins : Option (List Char)
  losses : Option (List Char)
  win_pct : Option (List Char)
deriving DecidableEq

/-- The all-`None` stats dictionary `extract_role_stats` starts from. -/
def allNoneStats : RoleStats :=
  { rank := none, mmr := none, games_played_pct := none,
    wins := none, losses := none, win_pct := none }

/-- The shared tail of `extract_role_stats`: search one role pattern and
fill the six fields from groups 1–6 on success. -/
def roleStatsOf (pat : List Atom) (html : List Char) : RoleStats :=
  match reSearch pat html with
  | none => allNoneStats
  | some r =>
    { rank := lookupCap 1 r.1, mmr := lookupCap 2 r.1,
      games_played_pct := lookupCap 3 r.1, wins := lookupCap 4 r.1,
      losses := lookupCap 5 r.1, win_pct := lookupCap 6 r.1 }

/-- `extract_role_stats`: dispatch on the role string, with the all-`None`
dictionary for unrecognized roles. -/
def extract_role_stats (html : List Char) (role : List Char) : RoleStats :=
  if role = cs "Crewmate" then roleStatsOf P_crew html
  else if role = cs "Impostor" then roleStatsOf P_imp html
  else if role = cs "Combined" then roleStatsOf P_comb html
  else allNoneStats

/-- The row `extract_player_data` builds (the flat dict of
`extract_player_stats.py`). -/
structure PlayerRow : Type where
  server_name : List Char
  season : List Char
  discord_id : List Char
  username : List Char
  combined : RoleStats
  crewmate : RoleStats
  impostor : RoleStats
deriving DecidableEq

/-- `extract_player_data` on document text (file I/O is out of scope; the
`except` path of the source can only trigger on I/O and so has no pure
counterpart). -/
def extract_player_data (html : List Char) : Option PlayerRow :=
  let server_name := extract_server_name html
  let season := extract_season html
  let discord_id := extract_discord_id_stats html
  let username := extract_username html
  if strFalsy discord_id then none
  else some
    { server_name := orUnknown server_name, season := season,
      discord_id := discord_id.getD [], username := orUnknown username,
      combined := extract_role_stats html (cs "Combined"),
      crewmate := extract_role_stats html (cs "Crewmate"),
      impostor := extract_role_stats html (cs "Impostor") }

/-! ## Match history (`extract_match_history.py`) -/

/-- One extracted match. -/
structure MatchRecord : Type where
  match_id : List Char
  map : List Char
  role : List Char
  win_probability_pct : List Char
  result : List Char
  mmr_change : List Char
  mmr_pct_of_total : Option (List Char)
deriving DecidableEq

/-- The conformant rows of the located "Recent 10 Results" table: the
`finditer` matches of the row pattern inside group 1 of the table match,
in source order; `[]` when the table is absent. -/
def mhRows (html : List Char) : List Caps :=
  match reSearch P_mhTable html with
  | none => []
  | some r => finditer P_mhRow (group1 r)

/-- The record built from one row match (the loop body of
`extract_match_history`). -/
def mkMatch (c : Caps) : MatchRecord :=
  { match_id := gcap c 1,
    map := extract_map_from_image (gcap c 2),
    role := extract_role_from_image (gcap c 3),
    win_probability_pct := gcap c 4,
    result := gcap c 5,
    mmr_change := gcap c 6,
    mmr_pct_of_total := (reSearch P_pctTotal (gcap c 7)).map group1 }

/-- `extract_match_history`: one record per conformant row, in source order. -/
def extract_match_history (html : List Char) : List MatchRecord :=
  (mhRows html).map mkMatch

/-- One output row of `match_history.csv`: identity fields plus payload. -/
structure MatchRow : Type where
  server_name : List Char
  season : List Char
  player_discord_id : List Char
  player_username : List Char
  data : MatchRecord
deriving DecidableEq

/-- `extract_all_match_data` on document text. -/
def extract_all_match_data (html : List Char) : List MatchRow :=
  let server_name := extract_server_name html
  let season := extract_season html
  let discord_id := extract_discord_id_mh html
  let username := extract_username html
  if strFalsy discord_id then []
  else (extract_match_history html).map (fun m =>
    { server_name := orUnknown server_name, season := season,
      player_discord_id := discord_id.getD [],
      player_username := orUnknown username, data := m })

/-! ## Teammates (`extract_teammates.py`) -/

/-- One extracted teammate relationship. -/
structure TeammateRecord : Type where
  teammate_discord_id : List Char
  teammate_rank : List Char
  teammate_username : List Char
  teammate_mmr : List Char
  matches_together_count : List Char
  matches_together_pct : List Char
deriving DecidableEq

/-- The conformant rows of the located "Top 10 Common Teammates" table. -/
def tmRows (html : List Char) : List Caps :=
  match reSearch P_tmTable html with
  | none => []
  | some r => finditer P_tmRow (group1 r)

/-- The record built from one teammate row match. -/
def mkTeammate (c : Caps) : TeammateRecord :=
  { teammate_discord_id := gcap c 1, teammate_rank := gcap c 2,
    teammate_username := stripL (gcap c 3), teammate_mmr := gcap c 4,
    matches_together_count := gcap c 5, matches_together_pct := gcap c 6 }

/-- `extract_teammates`: one record per conformant row, in source order. -/
def extract_teammates (html : List Char) : List TeammateRecord :=
  (tmRows html).map mkTeammate

/-- One output row of `common_teammates.csv`. -/
structure TeammateRow : Type where
  server_name : List Char
  season : List Char
  player_discord_id : List Char
  player_username : List Char
  data : TeammateRecord
deriving DecidableEq

/-- `extract_all_teammate_data` on document text. -/
def extract_all_teammate_data (html : List Char) : List TeammateRow :=
  let server_name := extract_server_name html
  let season := extract_season html
  let discord_id := extract_discord_id_tm html
  let username := extract_username html
  if strFalsy discord_id then []
  else (extract_teammates html).map (fun t =>
    { server_name := orUnknown server_name, season := season,
      player_discord_id := discord_id.getD [],
      player_username := orUnknown username, data := t })

/-! ## Driver counting logic (the per-document success/failure tallies of
the three `process_html_files` loops; directory walking, timing and CSV
I/O are out of scope) -/

/-- The stats driver's tally: `extract_player_data` returning a dict counts
as successful, `None` as failed. -/
def statsCounts (docs : List (List Char)) : Nat × Nat :=
  docs.foldl
    (fun acc d =>
      match extract_player_data d with
      | some _ => (acc.1 + 1, acc.2)
      | none => (acc.1, acc.2 + 1))
    (0, 0)

/-- The match-history driver's tally, mirroring
`if rows: ... elif rows is not None and len(rows) == 0: ... else: failed`.
In the model (as in the source) the extractor always returns a list, so
the `rows is not None` conjunct is vacuous and the final branch is dead. -/
def mhCounts (docs : List (List Char)) : Nat × Nat :=
  docs.foldl
    (fun acc d =>
      let rows := extract_all_match_data d
      if rows ≠ [] then (acc.1 + 1, acc.2)
      else if rows = [] then (acc.1 + 1, acc.2)
      else (acc.1, acc.2 + 1))
    (0, 0)

/-- The teammate driver's tally (same shape as the match-history driver). -/
def tmCounts (docs : List (List Char)) : Nat × Nat :=
  docs.foldl
    (fun acc d =>
      let rows := extract_all_teammate_data d
      if rows ≠ [] then (acc.1 + 1, acc.2)
      else if rows = [] then (acc.1 + 1, acc.2)
      else (acc.1, acc.2 + 1))
    (0, 0)

/-! ## CSV rendering of optional values

`csv.DictWriter` writes a `None` value as the empty field; this is the
documented behavior of Python's `csv` module. -/

/-- One CSV cell from an optional scalar: `None` renders empty. -/
def csvCell : Option (List Char) → List Char
  | none => []
  | some s => s

/-- The `player_main_stats.csv` row for one `PlayerRow`, in the
`fieldnames` order of `extract_player_stats.py`. -/
def statsCsvRow (r : PlayerRow) : List (List Char) :=
  [r.server_name, r.season, r.discord_id, r.username,
   csvCell r.combined.rank, csvCell r.combined.mmr,
   csvCell r.combined.games_played_pct, csvCell r.combined.wins,
   csvCell r.combined.losses, csvCell r.combined.win_pct,
   csvCell r.crewmate.rank, csvCell r.crewmate.mmr,
   csvCell r.crewmate.games_played_pct, csvCell r.crewmate.wins,
   csvCell r.crewmate.losses, csvCell r.crewmate.win_pct,
   csvCell r.impostor.rank, csvCell r.impostor.mmr,
   csvCell r.impostor.games_played_pct, csvCell r.impostor.wins,
   csvCell r.impostor.losses, csvCell r.impostor.win_pct]

/-- The `match_history.csv` row for one `MatchRow`, in the `fieldnames`
order of `extract_match_history.py`. -/
def matchCsvRow (r : MatchRow) : List (List Char) :=
  [r.server_name, r.season, r.player_discord_id, r.player_username,
   r.data.match_id, r.data.map, r.data.role, r.data.win_probability_pct,
   r.data.result, r.data.mmr_change, csvCell r.data.mmr_pct_of_total]

/-! ## `debug.py` row assembly

`debug.py` gathers each role's stats into a dict that is either empty or
has all six keys set together, then renders the CSV row with
`.get(key, "N/A")`.  Modelled as an optional six-field record. -/

/-- One role's stats as gathered by `debug.py` (all six set together). -/
structure DebugStats : Type where
  rank : List Char
  mmr : List Char
  played : List Char
  won : List Char
  lost : List Char
  win_pct : List Char
deriving DecidableEq

/-- `stats.get(field, "N/A")` for a possibly absent role dict. -/
def dget (o : Option DebugStats) (f : DebugStats → List Char) : List Char :=
  match o with
  | some s => f s
  | none => cs "N/A"

/-- The `row_data` list of `debug.py`: player name, server, then the six
crew, six impostor and six overall fields with `"N/A"` defaults. -/
def row_data (player_name server : List Char)
    (crew imp overall : Option DebugStats) : List (List Char) :=
  [player_name, server,
   dget crew (fun s => s.rank), dget crew (fun s => s.mmr),
   dget crew (fun s => s.played), dget crew (fun s => s.won),
   dget crew (fun s => s.lost), dget crew (fun s => s.win_pct),
   dget imp (fun s => s.rank), dget imp (fun s => s.mmr),
   dget imp (fun s => s.played), dget imp (fun s => s.won),
   dget imp (fun s => s.lost), dget imp (fun s => s.win_pct),
   dget overall (fun s => s.rank), dget overall (fun s => s.mmr),
   dget overall (fun s => s.played), dget overall (fun s => s.won),
   dget overall (fun s => s.lost), dget overall (fun s => s.win_pct)]

/-! ## Engine lemmas

Two invariants about the matcher are needed by the claims: a group that
occurs at the top level of a pattern is always bound in a successful
match's captures (`setsKeyB`), and every value captured for group 1 of a
pattern whose group-1 bodies are all `(\d+)` is a nonempty digit string
(`dsAtom`). -/

/-- A nonempty all-digit capture value. -/
def goodVal (v : List Char) : Prop := v ≠ [] ∧ v.all Char.isDigit = true

/-- Group `n` is bound in the capture environment. -/
def hasKeyP (n : Nat) (c : Caps) : Prop := (lookupCap n c).isSome = true

/-- Any value bound for group 1 is a nonempty digit string. -/
def capsGood (c : Caps) : Prop := ∀ v, lookupCap 1 c = some v → goodVal v

/-- Every match the option holds has group `n` bound. -/
def resHasKey (n : Nat) (o : Option MRes) : Prop := ∀ r, o = some r → hasKeyP n r.1

/-- Every match the option holds has only good group-1 values. -/
def resGood (o : Option MRes) : Prop := ∀ r, o = some r → capsGood r.1

/-- Syntactic check: the pattern binds group `n` at the top level. -/
def setsKeyB (n : Nat) : List Atom → Bool
  | [] => false
  | .grp m _ :: rest => m == n || setsKeyB n rest
  | .alt2 m _ _ :: rest => m == n || setsKeyB n rest
  | _ :: rest => setsKeyB n rest

/-- Syntactic check: any group-1 atom is exactly `(\d+)`. -/
def dsAtom : Atom → Bool
  | .grp n g => if n = 1 then decide (g = GIn.many CC.digit true 1) else true
  | .alt2 n _ _ => decide (n ≠ 1)
  | _ => true

/-! ## Concrete documents and rows used by the claim theorems -/

/-- Document with an avatar URL (all three scripts resolve the same id). -/
def docAvId : List Char := cs "x cdn.discordapp.com/avatars/777/a.png y"

/-- Document with only a `data-href` id (only the stats script resolves). -/
def docHrefId : List Char := cs "<a data-href=\"./?id=42\">z</a>"

/-- Tournament reference without a season token. -/
def docTournNoSeason : List Char := cs "<a data-href=\"./?tournament=Fall Cup\">"

/-- Tournament reference with a `Season 5` token. -/
def docTournSeason : List Char := cs "<a data-href=\"./?tournament=Season 5&id=9\">"

/-- All six stat fields are bound. -/
def allSet (st : RoleStats) : Prop :=
  st.rank.isSome = true ∧ st.mmr.isSome = true ∧
  st.games_played_pct.isSome = true ∧ st.wins.isSome = true ∧
  st.losses.isSome = true ∧ st.win_pct.isSome = true

/-- The round-trip document of C5: one conformant match row with map marker
`airship`, role marker `impostor`, win probability `63.5%`, result `Won`,
and MMR cell `+12 (5% of total)`. -/
def doc5 : List Char := cs "Recent 10 Results <table class=\"archiveResults\"><tr> <th>1</th> <td><img src=\"airship.png\"></td> <td><img src=\"impostor.png\"></td> <td>63.5%</td> <td><span>Won</span></td> <td>+12 (5% of total)</td> </tr></table>"

/-- The C5 variant with a negative MMR cell `-7 (3% of total)`. -/
def doc5m : List Char := cs "Recent 10 Results <table class=\"archiveResults\"><tr> <th>1</th> <td><img src=\"airship.png\"></td> <td><img src=\"impostor.png\"></td> <td>63.5%</td> <td><span>Won</span></td> <td>-7 (3% of total)</td> </tr></table>"

/-- One conformant match row of the C7 counterexample table. -/
def mhRowHtml (i : String) : String :=
  "<tr><th>" ++ i ++ "</th><td><img src=\"a\"></td><td><img src=\"b\"></td><td>1%</td><td><span>Won</span></td><td>1</td>"

/-- A document whose located "Recent 10 Results" table holds eleven
conformant rows. -/
def doc11 : List Char := cs ("Recent 10 Results<table class=\"archiveResults\">"
  ++ mhRowHtml "1" ++ mhRowHtml "2" ++ mhRowHtml "3" ++ mhRowHtml "4" ++ mhRowHtml "5"
  ++ mhRowHtml "6" ++ mhRowHtml "7" ++ mhRowHtml "8" ++ mhRowHtml "9" ++ mhRowHtml "10"
  ++ mhRowHtml "11" ++ "</table>")

/-- One conformant teammate row of the C7 counterexample table. -/
def tmRowHtml (i : String) : String :=
  "<tr data-href=\"?id=" ++ i ++ "\"><th>" ++ i ++ "</th><td><img src=\"a\"/>B" ++ i
  ++ "</td><td>9</td><td>3 [1%]</td></tr>"

/-- A document whose located "Top 10 Common Teammates" table holds eleven
conformant rows. -/
def tdoc11 : List Char := cs ("Top 10 Common Teammates<table class=\"t\">"
  ++ tmRowHtml "1" ++ tmRowHtml "2" ++ tmRowHtml "3" ++ tmRowHtml "4" ++ tmRowHtml "5"
  ++ tmRowHtml "6" ++ tmRowHtml "7" ++ tmRowHtml "8" ++ tmRowHtml "9" ++ tmRowHtml "10"
  ++ tmRowHtml "11" ++ "</table>")

/-- The C6 witness document: an avatar identity, a username header, and a
match table with two conformant rows. -/
def docW : List Char := cs ("<img class=\"avatar avatarTop\" src=\"https://cdn.discordapp.com/avatars/123/a.png\"><h1>Zed</h1> Recent 10 Results <table class=\"archiveResults\">"
  ++ "<tr><th>1</th><td><img src=\"polus.png\"></td><td><img src=\"crew.png\"></td><td>40%</td><td><span>Loss</span></td><td>-3</td>"
  ++ "<tr><th>2</th><td><img src=\"skeld.png\"></td><td><img src=\"impostor.png\"></td><td>70%</td><td><span>Won</span></td><td>+9 (2% of total)</td>"
  ++ "</table>")

/-- A document with a resolvable identity and no stats, match or teammate
section at all. -/
def docAvOnly : List Char := cs "<img src=\"https://cdn.discordapp.com/avatars/99/a.png\">"

/-- A stats row whose three role sub-records are all absent. -/
def rowAllNone : PlayerRow :=
  { server_name := cs "s", season := cs "0", discord_id := cs "9",
    username := cs "u", combined := allNoneStats, crewmate := allNoneStats,
    impostor := allNoneStats }

/-- A match output row whose optional `% of total` scalar is absent. -/
def matchRowNoPct : MatchRow :=
  { server_name := cs "s", season := cs "0", player_discord_id := cs "9",
    player_username := cs "u",
    data := { match_id := cs "1", map := cs "Polus", role := cs "Crewmate",
              win_probability_pct := cs "50", result := cs "Won",
              mmr_change := cs "1", mmr_pct_of_total := none } }

theorem lookupCap_insert_self (n : Nat) (v : List Char) (c : Caps) :
    lookupCap n (insertCap n v c) = some v := by
  simp [insertCap, lookupCap]

theorem lookupCap_insert_ne {m n : Nat} (h : m ≠ n) (v : List Char) (c : Caps) :
    lookupCap n (insertCap m v c) = lookupCap n c := by
  simp [insertCap, lookupCap, h]

theorem hasKeyP_insert {n : Nat} (m : Nat) (v : List Char) {c : Caps}
    (h : hasKeyP n c) : hasKeyP n (insertCap m v c) := by
  by_cases hm : m = n
  · subst hm; simp [hasKeyP, lookupCap_insert_self]
  · simpa [hasKeyP, lookupCap_insert_ne hm] using h

theorem hasKeyP_insert_self (n : Nat) (v : List Char) (c : Caps) :
    hasKeyP n (insertCap n v c) := by
  simp [hasKeyP, lookupCap_insert_self]

theorem capsGood_insert_ne {m : Nat} (h : m ≠ 1) (v : List Char) {c : Caps}
    (hc : capsGood c) : capsGood (insertCap m v c) := by
  intro w hw
  rw [lookupCap_insert_ne h] at hw
  exact hc w hw

theorem capsGood_insert_good {v : List Char} (hv : goodVal v) (c : Caps) :
    capsGood (insertCap 1 v c) := by
  intro w hw
  rw [lookupCap_insert_self] at hw
  cases hw
  exact hv

/-- Results of the greedy loop all flow through `tryRest` (or are `none`). -/
theorem grpGreedy_sound (p : Char → Bool)
    (tryRest : List Char → List Char → Option MRes)
    (Q : Option MRes → Prop) (_hn : Q none)
    (hk : ∀ v s', Q (tryRest v s')) :
    ∀ s acc, Q (grpGreedy p tryRest acc s) := by
  intro s
  induction s with
  | nil => intro acc; simpa [grpGreedy] using hk _ _
  | cons c s' ih =>
    intro acc
    by_cases hp : p c
    · have h1 := ih (c :: acc)
      cases hr : grpGreedy p tryRest (c :: acc) s' with
      | some r => simpa [grpGreedy, hp, hr] using hr ▸ h1
      | none => simpa [grpGreedy, hp, hr] using hk _ _
    · simpa [grpGreedy, hp] using hk _ _

/-- Results of the lazy loop all flow through `tryRest` (or are `none`). -/
theorem grpLazy_sound (p : Char → Bool)
    (tryRest : List Char → List Char → Option MRes)
    (Q : Option MRes → Prop) (hn : Q none)
    (hk : ∀ v s', Q (tryRest v s')) :
    ∀ s acc, Q (grpLazy p tryRest acc s) := by
  intro s
  induction s with
  | nil => intro acc; simpa [grpLazy] using hk _ _
  | cons c s' ih =>
    intro acc
    cases hr : tryRest acc.reverse (c :: s') with
    | some r => simpa [grpLazy, hr] using hr ▸ hk acc.reverse (c :: s')
    | none =>
      by_cases hp : p c
      · simpa [grpLazy, hr, hp] using ih (c :: acc)
      · simpa [grpLazy, hr, hp] using hn

/-- Results of a quantifier all flow through `tryRest` (or are `none`). -/
theorem grpMany_sound (p : Char → Bool) (greedy : Bool) (min : Nat)
    (tryRest : List Char → List Char → Option MRes)
    (Q : Option MRes → Prop) (hn : Q none)
    (hk : ∀ v s', Q (tryRest v s')) (acc0 s : List Char) :
    Q (grpMany p greedy min tryRest acc0 s) := by
  unfold grpMany
  cases hp : peelAcc p min acc0 s with
  | none => simpa using hn
  | some pr =>
    cases greedy
    · simpa using grpLazy_sound p tryRest Q hn hk pr.2 pr.1
    · simpa using grpGreedy_sound p tryRest Q hn hk pr.2 pr.1

/-- The committed minimum only adds `p`-characters to the accumulator. -/
theorem peelAcc_all (p : Char → Bool) :
    ∀ (min : Nat) (acc0 s acc1 s1 : List Char),
      peelAcc p min acc0 s = some (acc1, s1) →
      acc0.all p = true →
      acc1.all p = true ∧ acc0.length + min = acc1.length := by
  intro min
  induction min with
  | zero =>
    intro acc0 s acc1 s1 h h0
    simp [peelAcc] at h
    obtain ⟨h1, _⟩ := h
    subst h1
    exact ⟨h0, rfl⟩
  | succ m ih =>
    intro acc0 s acc1 s1 h h0
    cases s with
    | nil => simp [peelAcc] at h
    | cons c s' =>
      cases hp : p c with
      | true =>
        simp only [peelAcc, hp, if_true] at h
        have hr := ih (c :: acc0) s' acc1 s1 h (by simp [hp, h0])
        refine ⟨hr.1, ?_⟩
        have := hr.2
        simp only [List.length_cons] at this
        omega
      | false => simp [peelAcc, hp] at h

/-- Greedy loop, value-refined: with an accumulator of `p`-characters, every
text handed to `tryRest` is a nonempty string of `p`-characters. -/
theorem grpGreedy_vals (p : Char → Bool)
    (tryRest : List Char → List Char → Option MRes)
    (Q : Option MRes → Prop) (_hn : Q none)
    (hk : ∀ v s', v ≠ [] → v.all p = true → Q (tryRest v s')) :
    ∀ s acc, acc ≠ [] → acc.all p = true → Q (grpGreedy p tryRest acc s) := by
  intro s
  induction s with
  | nil =>
    intro acc hne hall
    simpa [grpGreedy] using hk acc.reverse [] (by simpa using hne) (by simpa using hall)
  | cons c s' ih =>
    intro acc hne hall
    by_cases hp : p c
    · have h1 := ih (c :: acc) (by simp) (by simp [hp, hall])
      cases hr : grpGreedy p tryRest (c :: acc) s' with
      | some r => simpa [grpGreedy, hp, hr] using hr ▸ h1
      | none =>
        simpa [grpGreedy, hp, hr] using
          hk acc.reverse (c :: s') (by simpa using hne) (by simpa using hall)
    · simpa [grpGreedy, hp] using
        hk acc.reverse (c :: s') (by simpa using hne) (by simpa using hall)

/-- Lazy loop, value-refined. -/
theorem grpLazy_vals (p : Char → Bool)
    (tryRest : List Char → List Char → Option MRes)
    (Q : Option MRes → Prop) (hn : Q none)
    (hk : ∀ v s', v ≠ [] → v.all p = true → Q (tryRest v s')) :
    ∀ s acc, acc ≠ [] → acc.all p = true → Q (grpLazy p tryRest acc s) := by
  intro s
  induction s with
  | nil =>
    intro acc hne hall
    simpa [grpLazy] using hk acc.reverse [] (by simpa using hne) (by simpa using hall)
  | cons c s' ih =>
    intro acc hne hall
    cases hr : tryRest acc.reverse (c :: s') with
    | some r =>
      simpa [grpLazy, hr] using
        hr ▸ hk acc.reverse (c :: s') (by simpa using hne) (by simpa using hall)
    | none =>
      by_cases hp : p c
      · simpa [grpLazy, hr, hp] using ih (c :: acc) (by simp) (by simp [hp, hall])
      · simpa [grpLazy, hr, hp] using hn

/-- Quantifier, value-refined: when the committed minimum together with the
seed accumulator is nonempty, every capture handed to `tryRest` is a
nonempty string of `p`-characters. -/
theorem grpMany_vals (p : Char → Bool) (greedy : Bool) (min : Nat)
    (tryRest : List Char → List Char → Option MRes)
    (Q : Option MRes → Prop) (hn : Q none)
    (hk : ∀ v s', v ≠ [] → v.all p = true → Q (tryRest v s'))
    (acc0 s : List Char) (h0 : acc0.all p = true) (hmin : 1 ≤ min + acc0.length) :
    Q (grpMany p greedy min tryRest acc0 s) := by
  unfold grpMany
  cases hp : peelAcc p min acc0 s with
  | none => simpa using hn
  | some pr =>
    obtain ⟨hall, hlen⟩ := peelAcc_all p min acc0 s pr.1 pr.2 (by simpa using hp) h0
    have hne : pr.1 ≠ [] := by
      intro hc
      rw [hc] at hlen
      simp only [List.length_nil] at hlen
      omega
    cases greedy
    · simpa using grpLazy_vals p tryRest Q hn hk pr.2 pr.1 hne hall
    · simpa using grpGreedy_vals p tryRest Q hn hk pr.2 pr.1 hne hall

theorem resHasKey_none (n : Nat) : resHasKey n none := by
  intro r h
  cases h

theorem resGood_none : resGood none := by
  intro r h
  cases h

@[simp] theorem CC.test_digit : CC.test CC.digit = Char.isDigit := rfl

/-- Once group `n` is bound it stays bound through the rest of a match. -/
theorem mA_keepKey (n : Nat) :
    ∀ (atoms : List Atom) (s : List Char) (caps : Caps)
      (k : List Char → Caps → Option MRes),
      hasKeyP n caps →
      (∀ s' c', hasKeyP n c' → resHasKey n (k s' c')) →
      resHasKey n (mA atoms s caps k) := by
  intro atoms
  induction atoms with
  | nil =>
    intro s caps k hc hk
    simpa [mA] using hk s caps hc
  | cons a rest ih =>
    intro s caps k hc hk
    cases a with
    | lit l ci =>
      cases hs : stripLit ci l s with
      | some s1 => simpa [mA, hs] using ih s1 caps k hc hk
      | none => simpa [mA, hs] using resHasKey_none n
    | opt p =>
      cases s with
      | nil => simpa [mA] using ih [] caps k hc hk
      | cons c s' =>
        by_cases hp : p.test c
        · cases hr : mA rest s' caps k with
          | some r => simpa [mA, hp, hr] using hr ▸ ih s' caps k hc hk
          | none => simpa [mA, hp, hr] using ih (c :: s') caps k hc hk
        · simpa [mA, hp] using ih (c :: s') caps k hc hk
    | many p greedy min =>
      simpa [mA] using grpMany_sound p.test greedy min _ (resHasKey n)
        (resHasKey_none n) (fun _v s' => ih s' caps k hc hk) [] s
    | grp m g =>
      cases g with
      | many p greedy min =>
        simpa [mA] using grpMany_sound p.test greedy min _ (resHasKey n)
          (resHasKey_none n)
          (fun v s' => ih s' (insertCap m v caps) k (hasKeyP_insert m v hc) hk) [] s
      | optMany o p greedy min =>
        have hbase : ∀ acc0 s0, resHasKey n (grpMany p.test greedy min
            (fun v s'' => mA rest s'' (insertCap m v caps) k) acc0 s0) :=
          fun acc0 s0 => grpMany_sound p.test greedy min _ (resHasKey n)
            (resHasKey_none n)
            (fun v s' => ih s' (insertCap m v caps) k (hasKeyP_insert m v hc) hk) acc0 s0
        cases s with
        | nil => simpa [mA] using hbase [] []
        | cons c s' =>
          by_cases ho : o.test c
          · cases hr : grpMany p.test greedy min
                (fun v s'' => mA rest s'' (insertCap m v caps) k) [c] s' with
            | some r => simpa [mA, ho, hr] using hr ▸ hbase [c] s'
            | none => simpa [mA, ho, hr] using hbase [] (c :: s')
          · simpa [mA, ho] using hbase [] (c :: s')
    | alt2 m x y =>
      have hx : ∀ s1, resHasKey n (mA rest s1 (insertCap m x caps) k) :=
        fun s1 => ih s1 (insertCap m x caps) k (hasKeyP_insert m x hc) hk
      have hy : ∀ s1, resHasKey n (mA rest s1 (insertCap m y caps) k) :=
        fun s1 => ih s1 (insertCap m y caps) k (hasKeyP_insert m y hc) hk
      cases hsx : stripLit false x s with
      | some s1 =>
        cases hr : mA rest s1 (insertCap m x caps) k with
        | some r => simpa [mA, hsx, hr] using hr ▸ hx s1
        | none =>
          cases hsy : stripLit false y s with
          | some s2 => simpa [mA, hsx, hr, hsy] using hy s2
          | none => simpa [mA, hsx, hr, hsy] using resHasKey_none n
      | none =>
        cases hsy : stripLit false y s with
        | some s2 => simpa [mA, hsx, hsy] using hy s2
        | none => simpa [mA, hsx, hsy] using resHasKey_none n

/-- A pattern that binds group `n` at the top level binds it in every
successful match. -/
theorem mA_setsKey (n : Nat) :
    ∀ (atoms : List Atom) (s : List Char) (caps : Caps)
      (k : List Char → Caps → Option MRes),
      setsKeyB n atoms = true →
      (∀ s' c', hasKeyP n c' → resHasKey n (k s' c')) →
      resHasKey n (mA atoms s caps k) := by
  intro atoms
  induction atoms with
  | nil =>
    intro s caps k hsk hk
    simp [setsKeyB] at hsk
  | cons a rest ih =>
    intro s caps k hsk hk
    cases a with
    | lit l ci =>
      have hsk' : setsKeyB n rest = true := by simpa [setsKeyB] using hsk
      cases hs : stripLit ci l s with
      | some s1 => simpa [mA, hs] using ih s1 caps k hsk' hk
      | none => simpa [mA, hs] using resHasKey_none n
    | opt p =>
      have hsk' : setsKeyB n rest = true := by simpa [setsKeyB] using hsk
      cases s with
      | nil => simpa [mA] using ih [] caps k hsk' hk
      | cons c s' =>
        by_cases hp : p.test c
        · cases hr : mA rest s' caps k with
          | some r => simpa [mA, hp, hr] using hr ▸ ih s' caps k hsk' hk
          | none => simpa [mA, hp, hr] using ih (c :: s') caps k hsk' hk
        · simpa [mA, hp] using ih (c :: s') caps k hsk' hk
    | many p greedy min =>
      have hsk' : setsKeyB n rest = true := by simpa [setsKeyB] using hsk
      simpa [mA] using grpMany_sound p.test greedy min _ (resHasKey n)
        (resHasKey_none n) (fun _v s' => ih s' caps k hsk' hk) [] s
    | grp m g =>
      have hmr : m = n ∨ setsKeyB n rest = true := by
        simpa [setsKeyB] using hsk
      have htry : ∀ v s', resHasKey n (mA rest s' (insertCap m v caps) k) := by
        intro v s'
        rcases hmr with hmn | hsk'
        · rw [hmn]
          exact mA_keepKey n rest s' (insertCap n v caps) k
            (hasKeyP_insert_self n v caps) hk
        · exact ih s' (insertCap m v caps) k hsk' hk
      cases g with
      | many p greedy min =>
        simpa [mA] using grpMany_sound p.test greedy min _ (resHasKey n)
          (resHasKey_none n) htry [] s
      | optMany o p greedy min =>
        have hbase : ∀ acc0 s0, resHasKey n (grpMany p.test greedy min
            (fun v s'' => mA rest s'' (insertCap m v caps) k) acc0 s0) :=
          fun acc0 s0 => grpMany_sound p.test greedy min _ (resHasKey n)
            (resHasKey_none n) htry acc0 s0
        cases s with
        | nil => simpa [mA] using hbase [] []
        | cons c s' =>
          by_cases ho : o.test c
          · cases hr : grpMany p.test greedy min
                (fun v s'' => mA rest s'' (insertCap m v caps) k) [c] s' with
            | some r => simpa [mA, ho, hr] using hr ▸ hbase [c] s'
            | none => simpa [mA, ho, hr] using hbase [] (c :: s')
          · simpa [mA, ho] using hbase [] (c :: s')
    | alt2 m x y =>
      have hmr : m = n ∨ setsKeyB n rest = true := by
        simpa [setsKeyB] using hsk
      have htry : ∀ v s', resHasKey n (mA rest s' (insertCap m v caps) k) := by
        intro v s'
        rcases hmr with hmn | hsk'
        · rw [hmn]
          exact mA_keepKey n rest s' (insertCap n v caps) k
            (hasKeyP_insert_self n v caps) hk
        · exact ih s' (insertCap m v caps) k hsk' hk
      cases hsx : stripLit false x s with
      | some s1 =>
        cases hr : mA rest s1 (insertCap m x caps) k with
        | some r => simpa [mA, hsx, hr] using hr ▸ htry x s1
        | none =>
          cases hsy : stripLit false y s with
          | some s2 => simpa [mA, hsx, hr, hsy] using htry y s2
          | none => simpa [mA, hsx, hr, hsy] using resHasKey_none n
      | none =>
        cases hsy : stripLit false y s with
        | some s2 => simpa [mA, hsx, hsy] using htry y s2
        | none => simpa [mA, hsx, hsy] using resHasKey_none n

/-- In a pattern whose group-1 bodies are all `(\d+)`, every value bound for
group 1 in a successful match is a nonempty digit string. -/
theorem mA_digits :
    ∀ (atoms : List Atom) (s : List Char) (caps : Caps)
      (k : List Char → Caps → Option MRes),
      atoms.all dsAtom = true →
      capsGood caps →
      (∀ s' c', capsGood c' → resGood (k s' c')) →
      resGood (mA atoms s caps k) := by
  intro atoms
  induction atoms with
  | nil =>
    intro s caps k _ hc hk
    simpa [mA] using hk s caps hc
  | cons a rest ih =>
    intro s caps k hds hc hk
    rw [List.all_cons, Bool.and_eq_true] at hds
    have hdsa : dsAtom a = true := hds.1
    have hds' : rest.all dsAtom = true := hds.2
    cases a with
    | lit l ci =>
      cases hs : stripLit ci l s with
      | some s1 => simpa [mA, hs] using ih s1 caps k hds' hc hk
      | none => simpa [mA, hs] using resGood_none
    | opt p =>
      cases s with
      | nil => simpa [mA] using ih [] caps k hds' hc hk
      | cons c s' =>
        by_cases hp : p.test c
        · cases hr : mA rest s' caps k with
          | some r => simpa [mA, hp, hr] using hr ▸ ih s' caps k hds' hc hk
          | none => simpa [mA, hp, hr] using ih (c :: s') caps k hds' hc hk
        · simpa [mA, hp] using ih (c :: s') caps k hds' hc hk
    | many p greedy min =>
      simpa [mA] using grpMany_sound p.test greedy min _ resGood
        resGood_none (fun _v s' => ih s' caps k hds' hc hk) [] s
    | grp m g =>
      by_cases hm : m = 1
      · subst hm
        have hg : g = GIn.many CC.digit true 1 := by
          simpa [dsAtom] using hdsa
        subst hg
        have htry : ∀ v s', v ≠ [] → v.all Char.isDigit = true →
            resGood (mA rest s' (insertCap 1 v caps) k) := by
          intro v s' hne hall
          exact ih s' (insertCap 1 v caps) k hds'
            (capsGood_insert_good ⟨hne, hall⟩ caps) hk
        simpa [mA] using grpMany_vals Char.isDigit true 1 _ resGood
          resGood_none htry [] s (by simp) (by simp)
      · have htry : ∀ v s', resGood (mA rest s' (insertCap m v caps) k) :=
          fun v s' => ih s' (insertCap m v caps) k hds'
            (capsGood_insert_ne hm v hc) hk
        cases g with
        | many p greedy min =>
          simpa [mA] using grpMany_sound p.test greedy min _ resGood
            resGood_none htry [] s
        | optMany o p greedy min =>
          have hbase : ∀ acc0 s0, resGood (grpMany p.test greedy min
              (fun v s'' => mA rest s'' (insertCap m v caps) k) acc0 s0) :=
            fun acc0 s0 => grpMany_sound p.test greedy min _ resGood
              resGood_none htry acc0 s0
          cases s with
          | nil => simpa [mA] using hbase [] []
          | cons c s' =>
            by_cases ho : o.test c
            · cases hr : grpMany p.test greedy min
                  (fun v s'' => mA rest s'' (insertCap m v caps) k) [c] s' with
              | some r => simpa [mA, ho, hr] using hr ▸ hbase [c] s'
              | none => simpa [mA, ho, hr] using hbase [] (c :: s')
            · simpa [mA, ho] using hbase [] (c :: s')
    | alt2 m x y =>
      have hm : m ≠ 1 := by simpa [dsAtom] using hdsa
      have htry : ∀ v s', resGood (mA rest s' (insertCap m v caps) k) :=
        fun v s' => ih s' (insertCap m v caps) k hds'
          (capsGood_insert_ne hm v hc) hk
      cases hsx : stripLit false x s with
      | some s1 =>
        cases hr : mA rest s1 (insertCap m x caps) k with
        | some r => simpa [mA, hsx, hr] using hr ▸ htry x s1
        | none =>
          cases hsy : stripLit false y s with
          | some s2 => simpa [mA, hsx, hr, hsy] using htry y s2
          | none => simpa [mA, hsx, hr, hsy] using resGood_none
      | none =>
        cases hsy : stripLit false y s with
        | some s2 => simpa [mA, hsx, hsy] using htry y s2
        | none => simpa [mA, hsx, hsy] using resGood_none

theorem matchHere_hasKey (n : Nat) (pat : List Atom) (s : List Char)
    (hsk : setsKeyB n pat = true) : resHasKey n (matchHere pat s) := by
  unfold matchHere
  exact mA_setsKey n pat s [] _ hsk
    (fun s' c' hc' => by intro r hr; cases hr; exact hc')

theorem reSearch_hasKey (n : Nat) (pat : List Atom)
    (hsk : setsKeyB n pat = true) : ∀ s, resHasKey n (reSearch pat s) := by
  intro s
  induction s with
  | nil => simpa [reSearch] using matchHere_hasKey n pat [] hsk
  | cons c s' ih =>
    cases hm : matchHere pat (c :: s') with
    | some r => simpa [reSearch, hm] using hm ▸ matchHere_hasKey n pat (c :: s') hsk
    | none => simpa [reSearch, hm] using ih

theorem matchHere_digits (pat : List Atom) (s : List Char)
    (hds : pat.all dsAtom = true) : resGood (matchHere pat s) := by
  unfold matchHere
  refine mA_digits pat s [] _ hds ?_ (fun s' c' hc' => by intro r hr; cases hr; exact hc')
  intro v hv
  simp [lookupCap] at hv

theorem reSearch_digits (pat : List Atom)
    (hds : pat.all dsAtom = true) : ∀ s, resGood (reSearch pat s) := by
  intro s
  induction s with
  | nil => simpa [reSearch] using matchHere_digits pat [] hds
  | cons c s' ih =>
    cases hm : matchHere pat (c :: s') with
    | some r => simpa [reSearch, hm] using hm ▸ matchHere_digits pat (c :: s') hds
    | none => simpa [reSearch, hm] using ih

/-- For a pattern whose group 1 is `(\d+)` and always participates, the
`group(1)` of any search hit is a nonempty digit string. -/
theorem reSearch_group1 (pat : List Atom)
    (hds : pat.all dsAtom = true) (hsk : setsKeyB 1 pat = true)
    {s : List Char} {r : MRes} (h : reSearch pat s = some r) :
    goodVal (group1 r) := by
  have h1 : hasKeyP 1 r.1 := reSearch_hasKey 1 pat hsk s r h
  have h2 : capsGood r.1 := reSearch_digits pat hds s r h
  obtain ⟨v, hv⟩ := Option.isSome_iff_exists.mp h1
  have hg := h2 v hv
  simpa [group1, gcap, hv] using hg

/-! ## Claim theorems -/

/-- **C1**: a document whose Discord ID cannot be resolved (neither the
avatar URL nor the stats script's `data-href` fallback yields one)
produces no rows from any of the three record-kind extractors, whatever
the rest of the document contains. -/
theorem C1_missing_identity_no_rows (html : List Char)
    (h : extract_discord_id_stats html = none) :
    extract_player_data html = none ∧
    extract_all_match_data html = [] ∧
    extract_all_teammate_data html = [] := by
  have hav : reSearch P_avatar html = none := by
    cases hav : reSearch P_avatar html with
    | some r => simp [extract_discord_id_stats, hav] at h
    | none => rfl
  refine ⟨?_, ?_, ?_⟩
  · simp [extract_player_data, h, strFalsy]
  · simp [extract_all_match_data, extract_discord_id_mh, hav, strFalsy]
  · simp [extract_all_teammate_data, extract_discord_id_tm, hav, strFalsy]

theorem C1_witness :
    extract_discord_id_stats (cs "x") = none ∧
    (extract_player_data (cs "x") = none ∧
     extract_all_match_data (cs "x") = [] ∧
     extract_all_teammate_data (cs "x") = []) :=
  ⟨by decide, C1_missing_identity_no_rows (cs "x") (by decide)⟩

/-- **C2**: Discord-identity resolution prefers the numeric id of an avatar
URL `cdn.discordapp.com/avatars/{id}/`, which all three scripts return
when present; when it is absent, only the stats script falls back to the
`data-href` `id=` numeric parameter while the match-history and teammate
scripts return `None`; every id produced is a nonempty digit string. -/
theorem C2_discord_id_resolution (html : List Char) :
    (∀ i, avatar_id html = some i →
      extract_discord_id_stats html = some i ∧
      extract_discord_id_mh html = some i ∧
      extract_discord_id_tm html = some i ∧
      i ≠ [] ∧ i.all Char.isDigit = true) ∧
    (avatar_id html = none →
      extract_discord_id_stats html = datahref_id html ∧
      extract_discord_id_mh html = none ∧
      extract_discord_id_tm html = none) ∧
    (∀ i, datahref_id html = some i → i ≠ [] ∧ i.all Char.isDigit = true) := by
  refine ⟨?_, ?_, ?_⟩
  · intro i hi
    obtain ⟨r, hr, hg⟩ := Option.map_eq_some'.mp hi
    have hgood := reSearch_group1 P_avatar (by decide) (by decide) hr
    rw [hg] at hgood
    exact ⟨by simp [extract_discord_id_stats, hr, hg],
           by simp [extract_discord_id_mh, hr, hg],
           by simp [extract_discord_id_tm, hr, hg],
           hgood.1, hgood.2⟩
  · intro h0
    have hav : reSearch P_avatar html = none := Option.map_eq_none'.mp h0
    refine ⟨?_, ?_, ?_⟩
    · cases hd : reSearch P_dataHrefId html with
      | some r => simp [extract_discord_id_stats, datahref_id, hav, hd]
      | none => simp [extract_discord_id_stats, datahref_id, hav, hd]
    · simp [extract_discord_id_mh, hav]
    · simp [extract_discord_id_tm, hav]
  · intro i hi
    obtain ⟨r, hr, hg⟩ := Option.map_eq_some'.mp hi
    have hgood := reSearch_group1 P_dataHrefId (by decide) (by decide) hr
    rw [hg] at hgood
    exact ⟨hgood.1, hgood.2⟩

theorem C2_witness :
    (avatar_id docAvId = some (cs "777") ∧
     extract_discord_id_stats docAvId = some (cs "777") ∧
     extract_discord_id_mh docAvId = some (cs "777") ∧
     extract_discord_id_tm docAvId = some (cs "777")) ∧
    (avatar_id docHrefId = none ∧
     datahref_id docHrefId = some (cs "42") ∧
     extract_discord_id_stats docHrefId = datahref_id docHrefId ∧
     extract_discord_id_mh docHrefId = none ∧
     extract_discord_id_tm docHrefId = none) := by
  have h1 := (C2_discord_id_resolution docAvId).1 (cs "777") (by decide)
  have h2 := (C2_discord_id_resolution docHrefId).2.1 (by decide)
  exact ⟨⟨by decide, h1.1, h1.2.1, h1.2.2.1⟩,
         ⟨by decide, by decide, h2.1, h2.2.1, h2.2.2⟩⟩

/-- **C3**: `extract_season` returns `"0"` both for a document with no
`data-href` `tournament=` reference and for one whose tournament value
holds no `Season N` token; when the token is present, the digits `N` are
returned (as a nonempty digit string). -/
theorem C3_season_defaulting (html : List Char) :
    (tournamentParam html = none → extract_season html = cs "0") ∧
    (∀ v, tournamentParam html = some v → seasonNum (stripL v) = none →
      extract_season html = cs "0") ∧
    (∀ v nn, tournamentParam html = some v → seasonNum (stripL v) = some nn →
      extract_season html = nn ∧ nn ≠ [] ∧ nn.all Char.isDigit = true) := by
  refine ⟨?_, ?_, ?_⟩
  · intro h0
    have ht : reSearch P_tournament html = none := Option.map_eq_none'.mp h0
    simp [extract_season, ht]
  · intro v hv hs
    obtain ⟨r, hr, hg⟩ := Option.map_eq_some'.mp hv
    have hsn : reSearch P_seasonNum (stripL (group1 r)) = none := by
      rw [hg]; exact Option.map_eq_none'.mp hs
    simp [extract_season, hr, hsn]
  · intro v nn hv hs
    obtain ⟨r, hr, hg⟩ := Option.map_eq_some'.mp hv
    rw [← hg] at hs
    obtain ⟨r2, hr2, hg2⟩ := Option.map_eq_some'.mp hs
    have hgood := reSearch_group1 P_seasonNum (by decide) (by decide) hr2
    rw [hg2] at hgood
    exact ⟨by simp [extract_season, hr, hr2, hg2], hgood.1, hgood.2⟩

theorem C3_witness :
    (tournamentParam (cs "x") = none ∧ extract_season (cs "x") = cs "0") ∧
    (tournamentParam docTournNoSeason = some (cs "Fall Cup") ∧
     extract_season docTournNoSeason = cs "0") ∧
    (tournamentParam docTournSeason = some (cs "Season 5") ∧
     extract_season docTournSeason = cs "5") := by
  refine ⟨⟨by decide, (C3_season_defaulting (cs "x")).1 (by decide)⟩,
          ⟨by decide, (C3_season_defaulting docTournNoSeason).2.1
            (cs "Fall Cup") (by decide) (by decide)⟩,
          ⟨by decide, ((C3_season_defaulting docTournSeason).2.2
            (cs "Season 5") (cs "5") (by decide) (by decide)).1⟩⟩

theorem roleStatsOf_allNone_or_allSet (pat : List Atom) (html : List Char)
    (h1 : setsKeyB 1 pat = true) (h2 : setsKeyB 2 pat = true)
    (h3 : setsKeyB 3 pat = true) (h4 : setsKeyB 4 pat = true)
    (h5 : setsKeyB 5 pat = true) (h6 : setsKeyB 6 pat = true) :
    roleStatsOf pat html = allNoneStats ∨ allSet (roleStatsOf pat html) := by
  cases hr : reSearch pat html with
  | none => left; simp [roleStatsOf, hr]
  | some r =>
    right
    refine ⟨?_, ?_, ?_, ?_, ?_, ?_⟩ <;>
      simp only [roleStatsOf, hr]
    · exact reSearch_hasKey 1 pat h1 html r hr
    · exact reSearch_hasKey 2 pat h2 html r hr
    · exact reSearch_hasKey 3 pat h3 html r hr
    · exact reSearch_hasKey 4 pat h4 html r hr
    · exact reSearch_hasKey 5 pat h5 html r hr
    · exact reSearch_hasKey 6 pat h6 html r hr

/-- **C10**: `extract_role_stats` is total over its role argument: any role
other than `Crewmate`, `Impostor`, `Combined` yields the dictionary with
all six fields `None`; and for every document and role the six fields are
either all `None` or all bound by one pattern match, never a mix. -/
theorem C10_role_stats_totality (html role : List Char) :
    (role ≠ cs "Crewmate" → role ≠ cs "Impostor" → role ≠ cs "Combined" →
      extract_role_stats html role = allNoneStats) ∧
    (extract_role_stats html role = allNoneStats ∨
      allSet (extract_role_stats html role)) := by
  constructor
  · intro hc hi hb
    simp [extract_role_stats, hc, hi, hb]
  · by_cases hc : role = cs "Crewmate"
    · simpa [extract_role_stats, hc] using
        roleStatsOf_allNone_or_allSet P_crew html (by decide) (by decide)
          (by decide) (by decide) (by decide) (by decide)
    · by_cases hi : role = cs "Impostor"
      · simpa [extract_role_stats, hc, hi] using
          roleStatsOf_allNone_or_allSet P_imp html (by decide) (by decide)
            (by decide) (by decide) (by decide) (by decide)
      · by_cases hb : role = cs "Combined"
        · simpa [extract_role_stats, hc, hi, hb] using
            roleStatsOf_allNone_or_allSet P_comb html (by decide) (by decide)
              (by decide) (by decide) (by decide) (by decide)
        · left; simp [extract_role_stats, hc, hi, hb]

theorem C10_witness :
    extract_role_stats (cs "x") (cs "Pet") = allNoneStats :=
  (C10_role_stats_totality (cs "x") (cs "Pet")).1
    (by decide) (by decide) (by decide)

/-- **C4** counterexample: the role lookup is not case-insensitive — the
image sources `CREW` and `crew` are case variants of each other, yet
`extract_role_from_image` classifies the first as `Unknown` and the second
as `Crewmate`. -/
theorem C4_counterexample :
    lowerStr (cs "CREW") = lowerStr (cs "crew") ∧
    extract_role_from_image (cs "CREW") = cs "Unknown" ∧
    extract_role_from_image (cs "crew") = cs "Crewmate" ∧
    extract_role_from_image (cs "CREW") ≠ extract_role_from_image (cs "crew") := by
  decide

/-- **C4** (amended): the map lookup is a case-insensitive substring
classifier — its result is invariant under case changes of the input, with
`Unknown` exactly when none of the four map substrings occurs in the
lowered input; the role lookup is case-sensitive — it returns `Crewmate`
exactly when the raw input contains `Crew` or `crew`, `Impostor` exactly
when it contains neither of those but contains `Impostor` or `impostor`,
and `Unknown` exactly when it contains none of the four exact variants
(so e.g. `CREW` classifies as `Unknown`, not `Crewmate`). -/
theorem C4_lookup_case_sensitivity :
    (∀ s t, lowerStr s = lowerStr t →
      extract_map_from_image s = extract_map_from_image t) ∧
    (∀ s, extract_map_from_image s = cs "Unknown" ↔
      (subStr (cs "polus") (lowerStr s) = false ∧
       subStr (cs "mira") (lowerStr s) = false ∧
       subStr (cs "skeld") (lowerStr s) = false ∧
       subStr (cs "airship") (lowerStr s) = false)) ∧
    (∀ s, extract_role_from_image s = cs "Crewmate" ↔
      (subStr (cs "Crew") s = true ∨ subStr (cs "crew") s = true)) ∧
    (∀ s, extract_role_from_image s = cs "Impostor" ↔
      (subStr (cs "Crew") s = false ∧ subStr (cs "crew") s = false ∧
       (subStr (cs "Impostor") s = true ∨ subStr (cs "impostor") s = true))) ∧
    (∀ s, extract_role_from_image s = cs "Unknown" ↔
      (subStr (cs "Crew") s = false ∧ subStr (cs "crew") s = false ∧
       subStr (cs "Impostor") s = false ∧ subStr (cs "impostor") s = false)) := by
  have hPU : cs "Polus" ≠ cs "Unknown" := by decide
  have hMU : cs "MIRA HQ" ≠ cs "Unknown" := by decide
  have hSU : cs "The Skeld" ≠ cs "Unknown" := by decide
  have hAU : cs "Airship" ≠ cs "Unknown" := by decide
  have hCI : cs "Crewmate" ≠ cs "Impostor" := by decide
  have hIC : cs "Impostor" ≠ cs "Crewmate" := by decide
  have hCU : cs "Crewmate" ≠ cs "Unknown" := by decide
  have hUC : cs "Unknown" ≠ cs "Crewmate" := by decide
  have hIU : cs "Impostor" ≠ cs "Unknown" := by decide
  have hUI : cs "Unknown" ≠ cs "Impostor" := by decide
  refine ⟨?_, ?_, ?_, ?_, ?_⟩
  · intro s t h
    simp only [extract_map_from_image, h]
  · intro s
    cases h1 : subStr (cs "polus") (lowerStr s) <;>
      cases h2 : subStr (cs "mira") (lowerStr s) <;>
      cases h3 : subStr (cs "skeld") (lowerStr s) <;>
      cases h4 : subStr (cs "airship") (lowerStr s) <;>
      simp [extract_map_from_image, h1, h2, h3, h4, hPU, hMU, hSU, hAU]
  · intro s
    cases h1 : subStr (cs "Crew") s <;>
      cases h2 : subStr (cs "crew") s <;>
      cases h3 : subStr (cs "Impostor") s <;>
      cases h4 : subStr (cs "impostor") s <;>
      simp [extract_role_from_image, h1, h2, h3, h4, hIC, hUC]
  · intro s
    cases h1 : subStr (cs "Crew") s <;>
      cases h2 : subStr (cs "crew") s <;>
      cases h3 : subStr (cs "Impostor") s <;>
      cases h4 : subStr (cs "impostor") s <;>
      simp [extract_role_from_image, h1, h2, h3, h4, hCI, hUI]
  · intro s
    cases h1 : subStr (cs "Crew") s <;>
      cases h2 : subStr (cs "crew") s <;>
      cases h3 : subStr (cs "Impostor") s <;>
      cases h4 : subStr (cs "impostor") s <;>
      simp [extract_role_from_image, h1, h2, h3, h4, hCU, hIU]

theorem C4_witness :
    lowerStr (cs "maps/AIRSHIP.png") = lowerStr (cs "maps/airship.PNG") ∧
    extract_map_from_image (cs "maps/AIRSHIP.png") =
      extract_map_from_image (cs "maps/airship.PNG") :=
  ⟨by decide, C4_lookup_case_sensitivity.1 _ _ (by decide)⟩

set_option maxRecDepth 200000 in
/-- **C5**: the synthetic one-row document extracts to exactly one record
with map `Airship`, role `Impostor`, win probability `63.5`, result `Won`,
MMR change `12` (leading `+` stripped) and `% of total` `5`; and in the
`-7 (3% of total)` variant the leading `-` is preserved. -/
theorem C5_match_row_roundtrip :
    extract_match_history doc5 =
      [{ match_id := cs "1", map := cs "Airship", role := cs "Impostor",
         win_probability_pct := cs "63.5", result := cs "Won",
         mmr_change := cs "12", mmr_pct_of_total := some (cs "5") }] ∧
    extract_match_history doc5m =
      [{ match_id := cs "1", map := cs "Airship", role := cs "Impostor",
         win_probability_pct := cs "63.5", result := cs "Won",
         mmr_change := cs "-7", mmr_pct_of_total := some (cs "3") }] := by
  constructor <;> decide

/-- **C6**: with a resolvable identity, the match-history extractor returns
exactly one record per conformant row of the located table, in source
order, and the row assembler emits exactly that many output rows, all
carrying the document's identity fields. -/
theorem C6_fanout_identity (html pid : List Char)
    (hid : extract_discord_id_mh html = some pid) (hne : pid ≠ []) :
    extract_match_history html = (mhRows html).map mkMatch ∧
    (extract_match_history html).length = (mhRows html).length ∧
    (extract_all_match_data html).length = (mhRows html).length ∧
    ∀ row ∈ extract_all_match_data html,
      row.server_name = orUnknown (extract_server_name html) ∧
      row.season = extract_season html ∧
      row.player_discord_id = pid ∧
      row.player_username = orUnknown (extract_username html) := by
  have hemp : pid.isEmpty = false := by
    cases pid with
    | nil => exact absurd rfl hne
    | cons a l => rfl
  have hrows : extract_all_match_data html =
      (extract_match_history html).map (fun m =>
        { server_name := orUnknown (extract_server_name html),
          season := extract_season html,
          player_discord_id := pid,
          player_username := orUnknown (extract_username html), data := m }) := by
    simp [extract_all_match_data, hid, strFalsy, hemp]
  refine ⟨rfl, by simp [extract_match_history], ?_, ?_⟩
  · rw [hrows]
    simp [extract_match_history]
  · intro row hrow
    rw [hrows] at hrow
    obtain ⟨m, _, hm⟩ := List.mem_map.mp hrow
    rw [← hm]
    exact ⟨rfl, rfl, rfl, rfl⟩

set_option maxRecDepth 400000 in
theorem C6_witness :
    extract_discord_id_mh docW = some (cs "123") ∧
    (mhRows docW).length = 2 ∧
    (extract_match_history docW).length = 2 ∧
    (extract_all_match_data docW).length = 2 ∧
    (extract_match_history docW).map (fun m => m.match_id) = [cs "1", cs "2"] ∧
    ∀ row ∈ extract_all_match_data docW, row.player_discord_id = cs "123" := by
  have h := C6_fanout_identity docW (cs "123") (by decide) (by decide)
  have hk : (mhRows docW).length = 2 := by decide
  exact ⟨by decide, hk, h.2.1.trans hk, h.2.2.1.trans hk, by decide,
         fun row hr => (h.2.2.2 row hr).2.2.1⟩

set_option maxRecDepth 500000 in
/-- **C7** counterexample: the extractors impose no ten-record cap — a
located table with eleven conformant rows yields eleven match records, and
likewise eleven teammate records. -/
theorem C7_counterexample :
    10 < (extract_match_history doc11).length ∧
    10 < (extract_teammates tdoc11).length := by
  constructor <;> decide

/-- **C7** (amended): the extractors return exactly one record per
conformant row found in the located table, with no upper bound imposed by
the code — the 0–10 range describes real pages, not code behavior. -/
theorem C7_no_cap (html : List Char) :
    (extract_match_history html).length = (mhRows html).length ∧
    (extract_teammates html).length = (tmRows html).length :=
  ⟨by simp [extract_match_history], by simp [extract_teammates]⟩

set_option maxRecDepth 100000 in
/-- **C8**: the counting taxonomy at its failing input.  A document with no
resolvable identity is tallied as failed by the stats driver, but as
successfully processed (with the failed counter untouched) by the
match-history and teammate drivers, whose extractors return `[]` for
missing identity and whose `else: failed += 1` branch is therefore
unreachable; a document with identity but no optional sections is tallied
as successful by all three. -/
theorem C8_driver_miscount :
    extract_discord_id_mh (cs "x") = none ∧
    extract_discord_id_tm (cs "x") = none ∧
    extract_discord_id_stats (cs "x") = none ∧
    mhCounts [cs "x"] = (1, 0) ∧
    tmCounts [cs "x"] = (1, 0) ∧
    statsCounts [cs "x"] = (0, 1) ∧
    extract_discord_id_stats docAvOnly = some (cs "99") ∧
    mhCounts [docAvOnly] = (1, 0) ∧
    tmCounts [docAvOnly] = (1, 0) ∧
    statsCounts [docAvOnly] = (1, 0) := by
  refine ⟨by decide, by decide, by decide, by decide, by decide,
          by decide, by decide, by decide, by decide, by decide⟩

set_option maxRecDepth 100000 in
/-- **C9** counterexample: for a document with identity but no stats rows,
the aggregate-stats CSV row of `extract_player_stats.py` renders the absent
`combined_rank` field as the empty string, not as `"N/A"`. -/
theorem C9_counterexample :
    (extract_player_data docAvOnly).map (fun r => r.combined.rank) = some none ∧
    (extract_player_data docAvOnly).map
      (fun r => (statsCsvRow r).getD 4 (cs "?")) = some [] ∧
    cs "N/A" ≠ ([] : List Char) := by
  refine ⟨by decide, by decide, by decide⟩

/-- **C9** (amended): the `"N/A"` rendering of absent role sub-records
belongs to `debug.py`'s aggregate table only; the aggregate table of
`extract_player_stats.py` renders the six fields of an absent sub-record as
empty fields, and the match-history table renders its missing optional
scalar as an empty field. -/
theorem C9_missing_value_rendering :
    (∀ p s i o, ((row_data p s none i o).drop 2).take 6 =
      List.replicate 6 (cs "N/A")) ∧
    (∀ p s c o, ((row_data p s c none o).drop 8).take 6 =
      List.replicate 6 (cs "N/A")) ∧
    (∀ p s c i, ((row_data p s c i none).drop 14).take 6 =
      List.replicate 6 (cs "N/A")) ∧
    (∀ r : PlayerRow, r.combined = allNoneStats →
      ((statsCsvRow r).drop 4).take 6 = List.replicate 6 []) ∧
    (∀ r : PlayerRow, r.crewmate = allNoneStats →
      ((statsCsvRow r).drop 10).take 6 = List.replicate 6 []) ∧
    (∀ r : PlayerRow, r.impostor = allNoneStats →
      ((statsCsvRow r).drop 16).take 6 = List.replicate 6 []) ∧
    (∀ m : MatchRow, m.data.mmr_pct_of_total = none →
      (matchCsvRow m).getD 10 (cs "?") = []) := by
  refine ⟨?_, ?_, ?_, ?_, ?_, ?_, ?_⟩
  · intro p s i o; rfl
  · intro p s c o; rfl
  · intro p s c i; rfl
  · intro r h; simp [statsCsvRow, h, csvCell, allNoneStats]
  · intro r h; simp [statsCsvRow, h, csvCell, allNoneStats]
  · intro r h; simp [statsCsvRow, h, csvCell, allNoneStats]
  · intro m h; simp [matchCsvRow, h, csvCell]

theorem C9_witness :
    ((statsCsvRow rowAllNone).drop 4).take 6 = List.replicate 6 [] ∧
    (matchCsvRow matchRowNoPct).getD 10 (cs "?") = [] ∧
    ((row_data (cs "p") (cs "s") none none none).drop 2).take 6 =
      List.replicate 6 (cs "N/A") :=
  ⟨C9_missing_value_rendering.2.2.2.1 rowAllNone (by decide),
   C9_missing_value_rendering.2.2.2.2.2.2 matchRowNoPct (by decide),
   C9_missing_value_rendering.1 (cs "p") (cs "s") none none⟩

end AmongUs
